import Mathlib

/-!
Verification development for the CAT-Module quiz service (src/main.py).

The service keeps every quiz session in a key-value store (Redis in the
source).  Python floats are embedded as rationals (ℚ), Python ints as Int,
and the per-session Redis keys "<quizId>_<field>" as the structured key
type RKey (the string concatenation is injective because str(quizId)
contains no underscore, so a pair of quiz id and field name is a faithful
rendering of the flat key namespace).  Fallible Python code (KeyError,
IndexError, numpy ValueError, UnboundLocalError) is rendered with Option:
a result of none means the call raises and everything already written to
the store stays written.

The catsim library and config.py are not part of src/, so the strategy
objects they provide (selectors, stoppers, the differential-evolution
estimator, irt.see) and the config defaults are modelled from the spec;
each such definition carries a doc comment starting with
"Modelled from the spec:".  The estimator, the standard-error function
and the item-information function are numerical routines whose exact
values none of the claims depend on, so they are passed as explicit
function parameters (EstimateFun, SeeFun, InfoFun).
-/

/-- A quiz question as stored by the service (QuestionAPI in the source). -/
structure Question where
  id : Int
  discrimination : ℚ
  difficulty : ℚ
  pseudoGuessing : ℚ
  upperAsymptote : ℚ
  deriving DecidableEq, Inhabited

/-- The quiz-creation payload (QuizAPI in the source), with all pydantic
defaults already resolved. -/
structure QuizAPI where
  quizId : Int
  maxNumberOfQuestions : Int
  minMeasurementAccuracy : ℚ
  inputProficiencyLevel : ℚ
  questionSelector : String
  competencyEstimator : String
  questions : List Question
  deriving DecidableEq

/-- The next-question request payload (AnswerAPI in the source). -/
structure AnswerAPI where
  quizId : Int
  isCorrect : Option ℚ
  deriving DecidableEq

/-- The next-question response payload (NextQuestionAPI in the source). -/
structure NextQuestionAPI where
  quizId : Int
  questionId : Option Int
  measurementAccuracy : ℚ
  currentCompetency : ℚ
  quizFinished : Bool
  deriving DecidableEq

/-- The result response payload (ResultAPI in the source). -/
structure ResultAPI where
  quizId : Int
  quizFinished : Bool
  currentCompetency : ℚ
  measurementAccuracy : ℚ
  maxNumberOfQuestions : Int
  administeredQuestions : List Question
  responses : List ℚ
  deriving DecidableEq

/-- The per-session field names used as Redis key suffixes by the source. -/
inductive FieldName where
  | maxNumberOfQuestions
  | minMeasurementAccuracy
  | inputProficiencyLevel
  | questionSelector
  | competencyEstimator
  | standardErrorOfEstimation
  | quizFinished
  | questions
  | estTheta
  | minDiff
  | maxDiff
  | itemIndex
  | administeredItems
  | responses
  deriving DecidableEq

/-- A Redis key: either a per-session field ("<quizId>_<field>") or the
global live-session registry list "quizIds". -/
inductive RKey where
  | field (quizId : Int) (name : FieldName)
  | quizIds
  deriving DecidableEq

/-- A stored Redis value.  The source stores scalars as strings and parses
them back with float/int/strtobool; since every key is written and read at
one consistent type, values are embedded directly at that type. -/
inductive RVal where
  | rStr (s : String)
  | rInt (n : Int)
  | rRat (q : ℚ)
  | rBool (b : Bool)
  | rQList (l : List Question)
  | rNatList (l : List Nat)
  | rRatList (l : List ℚ)
  | rIntList (l : List Int)
  deriving DecidableEq

/-- The key-value store (the Redis database), as an association list. -/
abbrev Store := List (RKey × RVal)

/-- Redis GET: first binding of the key, if any. -/
def storeGet : Store → RKey → Option RVal
  | [], _ => none
  | (k', v) :: rest, k => if k' = k then some v else storeGet rest k

/-- Redis SET: bind the key, dropping any previous binding. -/
def storeSet (st : Store) (k : RKey) (v : RVal) : Store :=
  (k, v) :: st.filter (fun p => decide (p.1 ≠ k))

/-- Redis DEL of a set of keys. -/
def storeDel (st : Store) (ks : List RKey) : Store :=
  st.filter (fun p => decide (p.1 ∉ ks))

/-- Redis RPUSH of a question onto the list at a key (a fresh key starts
as the empty list). -/
def storeRpushQ (st : Store) (k : RKey) (q : Question) : Store :=
  match storeGet st k with
  | some (.rQList l) => storeSet st k (.rQList (l ++ [q]))
  | _ => storeSet st k (.rQList [q])

/-- Redis RPUSH of a natural-number item index. -/
def storeRpushNat (st : Store) (k : RKey) (n : Nat) : Store :=
  match storeGet st k with
  | some (.rNatList l) => storeSet st k (.rNatList (l ++ [n]))
  | _ => storeSet st k (.rNatList [n])

/-- Redis RPUSH of a rational (a response value). -/
def storeRpushRat (st : Store) (k : RKey) (x : ℚ) : Store :=
  match storeGet st k with
  | some (.rRatList l) => storeSet st k (.rRatList (l ++ [x]))
  | _ => storeSet st k (.rRatList [x])

/-- Redis RPUSH of an integer (a quiz id onto the registry). -/
def storeRpushInt (st : Store) (k : RKey) (x : Int) : Store :=
  match storeGet st k with
  | some (.rIntList l) => storeSet st k (.rIntList (l ++ [x]))
  | _ => storeSet st k (.rIntList [x])

/-- Redis LREM count=0: remove every occurrence of a value from the list
at a key. -/
def storeLremInt (st : Store) (k : RKey) (x : Int) : Store :=
  match storeGet st k with
  | some (.rIntList l) => storeSet st k (.rIntList (l.filter (fun y => decide (y ≠ x))))
  | _ => st

/-- Short name for a per-session key. -/
def qkey (quizId : Int) (f : FieldName) : RKey := RKey.field quizId f

/-- Read a key parsed as int (float/int in the source raises on a missing
key, rendered as none). -/
def readInt (st : Store) (k : RKey) : Option Int :=
  match storeGet st k with
  | some (.rInt n) => some n
  | _ => none

/-- Read a key parsed as float. -/
def readRat (st : Store) (k : RKey) : Option ℚ :=
  match storeGet st k with
  | some (.rRat q) => some q
  | _ => none

/-- Read a key decoded as a string. -/
def readStr (st : Store) (k : RKey) : Option String :=
  match storeGet st k with
  | some (.rStr s) => some s
  | _ => none

/-- Read a key parsed with strtobool. -/
def readBool (st : Store) (k : RKey) : Option Bool :=
  match storeGet st k with
  | some (.rBool b) => some b
  | _ => none

/-- Redis LRANGE over the whole list at a key; an absent key reads as the
empty list, exactly as in Redis. -/
def readQList (st : Store) (k : RKey) : List Question :=
  match storeGet st k with
  | some (.rQList l) => l
  | _ => []

/-- LRANGE of a list of item indices. -/
def readNatList (st : Store) (k : RKey) : List Nat :=
  match storeGet st k with
  | some (.rNatList l) => l
  | _ => []

/-- LRANGE of a list of response values. -/
def readRatList (st : Store) (k : RKey) : List ℚ :=
  match storeGet st k with
  | some (.rRatList l) => l
  | _ => []

/-- LRANGE of a list of quiz ids. -/
def readIntList (st : Store) (k : RKey) : List Int :=
  match storeGet st k with
  | some (.rIntList l) => l
  | _ => []

/-- Helper get_items of the source: all questions of a quiz. -/
def get_items (st : Store) (quizId : Int) : List Question :=
  readQList st (qkey quizId .questions)

/-- Helper get_administeredItems of the source. -/
def get_administeredItems (st : Store) (quizId : Int) : List Nat :=
  readNatList st (qkey quizId .administeredItems)

/-- Helper get_responses_as_float of the source. -/
def get_responses_as_float (st : Store) (quizId : Int) : List ℚ :=
  readRatList st (qkey quizId .responses)

/-- Helper get_responses of the source: each stored response becomes True
exactly when it parses to the float 1.0, else False. -/
def get_responses (st : Store) (quizId : Int) : List Bool :=
  (readRatList st (qkey quizId .responses)).map (fun x => decide (x = 1))

/-- Helper get_questionIds of the source. -/
def get_questionIds (st : Store) (quizId : Int) : List Int :=
  (get_items st quizId).map Question.id

/-- Helper get_questionId_by_index of the source; Python list indexing
raises IndexError out of range, rendered as none. -/
def get_questionId_by_index (st : Store) (quizId : Int) (itemIndex : Nat) : Option Int :=
  (get_questionIds st quizId).get? itemIndex

/-- Helper get_item_by_index of the source. -/
def get_item_by_index (st : Store) (quizId : Int) (itemIndex : Nat) : Option Question :=
  (get_items st quizId).get? itemIndex

/-- The while loop of get_indices: i counts from its start value up to and
including len. -/
def get_indices_from (i len : Nat) : List Nat :=
  if i ≤ len then i :: get_indices_from (i + 1) len else []
  termination_by len + 1 - i

/-- Helper get_indices of the source: appends every i with 0 ≤ i ≤
len(questions), hence one entry more than the question count. -/
def get_indices (st : Store) (quizId : Int) : List Nat :=
  get_indices_from 0 (get_items st quizId).length

/-- Helper quizIdExists of the source: membership in the registry list. -/
def quizIdExists (st : Store) (quizId : Int) : Bool :=
  decide (quizId ∈ readIntList st RKey.quizIds)

/-- numpy amin over the difficulty column; none on an empty bank because
numpy raises ValueError on an empty reduction. -/
def minDifficulty : List Question → Option ℚ
  | [] => none
  | q :: qs => some (qs.foldl (fun acc x => min acc x.difficulty) q.difficulty)

/-- numpy amax over the difficulty column; none on an empty bank. -/
def maxDifficulty : List Question → Option ℚ
  | [] => none
  | q :: qs => some (qs.foldl (fun acc x => max acc x.difficulty) q.difficulty)

/-- numpy fancy indexing items[administered_items]; none if any index is
out of range (numpy raises IndexError). -/
def itemsAt (items : List Question) (idxs : List Nat) : Option (List Question) :=
  idxs.mapM (fun i => items.get? i)

/-- The item-information function of the response model (catsim irt.inf).
It is external numerical code, so the development abstracts over it. -/
abbrev InfoFun := ℚ → Question → ℚ

/-- The standard error of estimation (catsim irt.see), abstracted. -/
abbrev SeeFun := ℚ → List Question → ℚ

/-- The differential-evolution estimator (catsim), abstracted: it receives
the (minDiff, maxDiff) bounds, the bank, the administered indices, the
boolean response vector and the prior theta. -/
abbrev EstimateFun := (ℚ × ℚ) → List Question → List Nat → List Bool → ℚ → ℚ

/-- The selector object returned by get_selector. -/
inductive Selector where
  | maxInfo
  | linear (indexes : List Nat)
  deriving DecidableEq

/-- Modelled from the spec: catsim MaxInfoSelector.select scans all bank
indices not yet administered and returns the one of maximum information
at the current theta, ties broken by lowest index; it returns no index
(None, which the caller crashes on) when every index is administered. -/
def maxInfoSelect (info : InfoFun) (items : List Question) (administered : List Nat)
    (theta : ℚ) : Option Nat :=
  match (List.range items.length).filter (fun i => !administered.contains i) with
  | [] => none
  | c :: cs =>
    some (cs.foldl (fun best j =>
      if info theta (items.getD j default) > info theta (items.getD best default) then j
      else best) c)

/-- Modelled from the spec: catsim LinearSelector.select returns the first
index of its configured index list that is not yet administered (the index
immediately following the last administered one when the administered list
is a prefix), and no index when all are administered. -/
def linearSelect (indexes : List Nat) (administered : List Nat) : Option Nat :=
  (indexes.filter (fun i => !administered.contains i)).head?

/-- Dispatch of Selector.select. -/
def selectorSelect (info : InfoFun) (sel : Selector) (items : List Question)
    (administered : List Nat) (theta : ℚ) : Option Nat :=
  match sel with
  | .maxInfo => maxInfoSelect info items administered theta
  | .linear idxs => linearSelect idxs administered

/-- Helper get_selector of the source: dispatch on the stored selector
string; an unknown string leaves the local unbound (UnboundLocalError),
rendered as none. -/
def get_selector (st : Store) (quizId : Int) : Option Selector :=
  match readStr st (qkey quizId .questionSelector) with
  | some s =>
    if s = "maxInfoSelector" then some Selector.maxInfo
    else if s = "linearSelector" then some (Selector.linear (get_indices st quizId))
    else none
  | none => none

/-- Helper get_estimator of the source: only the differential-evolution
string yields an estimator, configured with the stored (minDiff, maxDiff)
bounds; anything else raises UnboundLocalError, rendered as none. -/
def get_estimator (st : Store) (quizId : Int) : Option (ℚ × ℚ) :=
  match readStr st (qkey quizId .competencyEstimator) with
  | some s =>
    if s = "differentialEvolutionEstimator" then
      match readRat st (qkey quizId .minDiff), readRat st (qkey quizId .maxDiff) with
      | some mn, some mx => some (mn, mx)
      | _, _ => none
    else none
  | none => none

/-- Modelled from the spec: catsim MinErrorStopper stops when the standard
error over the administered items is at or below the configured
threshold. -/
def minErrorStop (threshold seVal : ℚ) : Bool :=
  decide (seVal ≤ threshold)

/-- Modelled from the spec: catsim MaxItemStopper stops when the number of
administered items has reached the configured maximum. -/
def maxItemStop (threshold : Int) (numAdministered : Nat) : Bool :=
  decide ((numAdministered : Int) ≥ threshold)

/-- The magic value 99.9 of the source (written with mkRat so that the
kernel can evaluate comparisons against it; randomSentinel_eq checks it
is the literal). -/
def randomSentinel : ℚ := mkRat 999 10

theorem randomSentinel_eq : randomSentinel = 99.9 := by
  norm_num [randomSentinel, mkRat]

/-- init_initializer of the source: a sentinel proficiency level of 99.9
requests a random start (the random draw is external, passed in as
randTheta); any other level is used verbatim.  Writes estTheta. -/
def init_initializer (randTheta : ℚ) (q : QuizAPI) (st : Store) : Store :=
  let theta := if q.inputProficiencyLevel = randomSentinel then randTheta
    else q.inputProficiencyLevel
  storeSet st (qkey q.quizId .estTheta) (.rRat theta)

/-- init_estimator of the source: for the differential-evolution
estimator, computes the difficulty bounds of the stored bank with numpy
amin/amax and writes minDiff/maxDiff; numpy raises ValueError on an empty
bank, rendered as none (the store at that point is the caller's). -/
def init_estimator (q : QuizAPI) (st : Store) : Option Store :=
  if q.competencyEstimator = "differentialEvolutionEstimator" then
    match minDifficulty (get_items st q.quizId), maxDifficulty (get_items st q.quizId) with
    | some mn, some mx =>
      some (storeSet (storeSet st (qkey q.quizId .minDiff) (.rRat mn))
        (qkey q.quizId .maxDiff) (.rRat mx))
    | _, _ => none
  else some st

/-- init_selector of the source: a linear quiz has its stored
maxNumberOfQuestions forced to the question count and its stored
minMeasurementAccuracy forced to 0.0; the in-memory object additionally
gets competencyEstimator replaced by "linearEstimator" (the store keeps
the original estimator string). -/
def init_selector (q : QuizAPI) (st : Store) : QuizAPI × Store :=
  if q.questionSelector = "linearSelector" then
    ({ q with
        maxNumberOfQuestions := (q.questions.length : Int)
        minMeasurementAccuracy := 0
        competencyEstimator := "linearEstimator" },
      storeSet (storeSet st (qkey q.quizId .maxNumberOfQuestions)
          (.rInt (q.questions.length : Int)))
        (qkey q.quizId .minMeasurementAccuracy) (.rRat 0))
  else (q, st)

/-- create_quiz of the source.  freshId stands for the Python id() of the
request object; defaultSEE is the config default for the initial standard
error (config.py is outside src/, so the value is a parameter).  Returns
the store as left at return or at the point of failure, and the updated
quiz object on success (none = the call raised). -/
def create_quiz (defaultSEE randTheta : ℚ) (freshId : Int) (quizAPI : QuizAPI)
    (st : Store) : Store × Option QuizAPI :=
  let q1 := { quizAPI with quizId := freshId }
  let st1 := storeSet (storeSet (storeSet (storeSet (storeSet (storeSet (storeSet st
    (qkey freshId .maxNumberOfQuestions) (.rInt q1.maxNumberOfQuestions))
    (qkey freshId .minMeasurementAccuracy) (.rRat q1.minMeasurementAccuracy))
    (qkey freshId .inputProficiencyLevel) (.rRat q1.inputProficiencyLevel))
    (qkey freshId .questionSelector) (.rStr q1.questionSelector))
    (qkey freshId .competencyEstimator) (.rStr q1.competencyEstimator))
    (qkey freshId .standardErrorOfEstimation) (.rRat defaultSEE))
    (qkey freshId .quizFinished) (.rBool false)
  let st2 := q1.questions.foldl (fun s question => storeRpushQ s (qkey freshId .questions) question) st1
  let st3 := init_initializer randTheta q1 st2
  match init_estimator q1 st3 with
  | none => (st3, none)
  | some st4 =>
    (storeRpushInt (init_selector q1 st4).2 RKey.quizIds freshId,
      some (init_selector q1 st4).1)

/-- get_next_question of the source.  The abstracted catsim routines are
passed in; the result is the store as left at return or at the point of a
raise, plus the response payload on success. -/
def get_next_question (estimate : EstimateFun) (see : SeeFun) (info : InfoFun)
    (answer : AnswerAPI) (st : Store) : Store × Option NextQuestionAPI :=
  let quizId := answer.quizId
  let items := get_items st quizId
  let administered := get_administeredItems st quizId
  match readRat st (qkey quizId .minMeasurementAccuracy),
        readInt st (qkey quizId .maxNumberOfQuestions),
        get_selector st quizId with
  | some minAcc, some maxN, some sel =>
    if administered.length = 0 then
      match readRat st (qkey quizId .estTheta) with
      | none => (st, none)
      | some theta =>
        match selectorSelect info sel items administered theta with
        | none => (st, none)
        | some itemIndex =>
          let st1 := storeSet st (qkey quizId .itemIndex) (.rInt (itemIndex : Int))
          match get_questionId_by_index st1 quizId itemIndex,
                readRat st1 (qkey quizId .standardErrorOfEstimation),
                readBool st1 (qkey quizId .quizFinished) with
          | some qId, some se0, some fin =>
            (storeRpushNat st1 (qkey quizId .administeredItems) itemIndex,
              some ⟨quizId, some qId, se0, theta, fin⟩)
          | _, _, _ => (st1, none)
    else
      match answer.isCorrect with
      | none => (st, none)
      | some rv =>
        if 0 ≤ rv ∧ rv ≤ 1 then
          let st1 := storeRpushRat st (qkey quizId .responses) rv
          match get_estimator st1 quizId with
          | none => (st1, none)
          | some bounds =>
            match readRat st1 (qkey quizId .estTheta) with
            | none => (st1, none)
            | some theta0 =>
              let theta := estimate bounds items administered (get_responses st1 quizId) theta0
              let st2 := storeSet st1 (qkey quizId .estTheta) (.rRat theta)
              match itemsAt items administered with
              | none => (st2, none)
              | some admItems =>
                let seVal := see theta admItems
                let st3 := storeSet st2 (qkey quizId .standardErrorOfEstimation) (.rRat seVal)
                let fin := minErrorStop minAcc seVal || maxItemStop maxN administered.length
                let st4 := storeSet st3 (qkey quizId .quizFinished) (.rBool fin)
                if fin then
                  (st4, some ⟨quizId, none, seVal, theta, fin⟩)
                else
                  match selectorSelect info sel items administered theta with
                  | none => (st4, none)
                  | some itemIndex =>
                    let st5 := storeSet st4 (qkey quizId .itemIndex) (.rInt (itemIndex : Int))
                    match get_questionId_by_index st5 quizId itemIndex with
                    | none => (st5, none)
                    | some qId =>
                      (storeRpushNat st5 (qkey quizId .administeredItems) itemIndex,
                        some ⟨quizId, some qId, seVal, theta, fin⟩)
        else (st, none)
  | _, _, _ => (st, none)

/-- The linear-result loop of get_result: walks the administered indices,
pairing the i-th administered item with the i-th stored response,
accumulating achievable points (sum of difficulties) and achieved points
(sum of difficulty times response) and the administered question records;
an out-of-range item index or a missing response raises IndexError,
rendered as none. -/
def get_result_linear_loop (items : List Question) (qids : List Int) :
    List Nat → List ℚ → ℚ → ℚ → List Question → Option (ℚ × ℚ × List Question)
  | [], _, achievable, achieved, acc => some (achievable, achieved, acc.reverse)
  | idx :: rest, resps, achievable, achieved, acc =>
    match items.get? idx, qids.get? idx, resps with
    | some item, some qId, resp :: resps' =>
      get_result_linear_loop items qids rest resps' (achievable + item.difficulty)
        (achieved + item.difficulty * resp)
        (⟨qId, item.discrimination, item.difficulty, item.pseudoGuessing,
          item.upperAsymptote⟩ :: acc)
    | _, _, _ => none

/-- The adaptive-result loop of get_result: collects the administered
question records; an out-of-range index raises, rendered as none. -/
def build_administered_questions (items : List Question) (qids : List Int) :
    List Nat → Option (List Question)
  | [] => some []
  | idx :: rest =>
    match items.get? idx, qids.get? idx, build_administered_questions items qids rest with
    | some item, some qId, some l =>
      some (⟨qId, item.discrimination, item.difficulty, item.pseudoGuessing,
        item.upperAsymptote⟩ :: l)
    | _, _, _ => none

/-- get_result of the source.  The linear branch overwrites the stored
standard error with 0.0 and the stored estTheta with achieved/achievable
(the source divides numpy floats, which yields nan on an all-zero
difficulty sum rather than raising; the embedding uses the rational
division, which is 0 there); the adaptive branch only reads. -/
def get_result (quizId : Int) (st : Store) : Store × Option ResultAPI :=
  match readStr st (qkey quizId .questionSelector) with
  | none => (st, none)
  | some selStr =>
    if selStr = "linearSelector" then
      let responses := get_responses_as_float st quizId
      let st1 := storeSet st (qkey quizId .standardErrorOfEstimation) (.rRat 0)
      match get_result_linear_loop (get_items st1 quizId) (get_questionIds st1 quizId)
          (get_administeredItems st1 quizId) responses 0 0 [] with
      | none => (st1, none)
      | some (achievable, achieved, admQs) =>
        let st2 := storeSet st1 (qkey quizId .estTheta) (.rRat (achieved / achievable))
        match readBool st2 (qkey quizId .quizFinished), readRat st2 (qkey quizId .estTheta),
              readRat st2 (qkey quizId .standardErrorOfEstimation),
              readInt st2 (qkey quizId .maxNumberOfQuestions) with
        | some fin, some theta, some se, some mx =>
          (st2, some ⟨quizId, fin, theta, se, mx, admQs, responses⟩)
        | _, _, _, _ => (st2, none)
    else
      match build_administered_questions (get_items st quizId) (get_questionIds st quizId)
          (get_administeredItems st quizId) with
      | none => (st, none)
      | some admQs =>
        match readBool st (qkey quizId .quizFinished), readRat st (qkey quizId .estTheta),
              readRat st (qkey quizId .standardErrorOfEstimation),
              readInt st (qkey quizId .maxNumberOfQuestions) with
        | some fin, some theta, some se, some mx =>
          (st, some ⟨quizId, fin, theta, se, mx, admQs, get_responses_as_float st quizId⟩)
        | _, _, _, _ => (st, none)

/-- delete_quiz of the source: deletes exactly the eleven listed
per-session keys and removes the id from the registry list.  The
administeredItems, responses and itemIndex keys are not in the list. -/
def delete_quiz (quizId : Int) (st : Store) : Store :=
  storeLremInt
    (storeDel st
      [qkey quizId .maxNumberOfQuestions,
       qkey quizId .minMeasurementAccuracy,
       qkey quizId .inputProficiencyLevel,
       qkey quizId .questionSelector,
       qkey quizId .competencyEstimator,
       qkey quizId .standardErrorOfEstimation,
       qkey quizId .quizFinished,
       qkey quizId .minDiff,
       qkey quizId .maxDiff,
       qkey quizId .questions,
       qkey quizId .estTheta])
    RKey.quizIds quizId

/-- Errors surfaced at the HTTP layer, named after the taxonomy of the
specification: 404 session not found, 406 on a finished quiz asked for
another question, 406 on an unfinished linear quiz asked for its result,
and 500 for any unhandled exception escaping the handler. -/
inductive ApiError where
  | sessionNotFound
  | examAlreadyFinished
  | resultNotReady
  | internalError
  deriving DecidableEq

/-- api_create_quiz of the source: create_quiz wrapped; a raise inside
becomes a 500. -/
def api_create_quiz (defaultSEE randTheta : ℚ) (freshId : Int) (quizAPI : QuizAPI)
    (st : Store) : Store × Except ApiError QuizAPI :=
  match create_quiz defaultSEE randTheta freshId quizAPI st with
  | (st', some q) => (st', .ok q)
  | (st', none) => (st', .error .internalError)

/-- api_get_next_question of the source: 404 when the id is not in the
registry, 406 when the stored quizFinished flag is already true, otherwise
the core operation runs. -/
def api_get_next_question (estimate : EstimateFun) (see : SeeFun) (info : InfoFun)
    (answer : AnswerAPI) (st : Store) : Store × Except ApiError NextQuestionAPI :=
  if !quizIdExists st answer.quizId then (st, .error .sessionNotFound)
  else
    match readBool st (qkey answer.quizId .quizFinished) with
    | none => (st, .error .internalError)
    | some fin =>
      if fin then (st, .error .examAlreadyFinished)
      else
        match get_next_question estimate see info answer st with
        | (st', some nq) => (st', .ok nq)
        | (st', none) => (st', .error .internalError)

/-- api_get_result of the source: 404 when the id is not registered; for a
linear quiz that is not finished, 406 (the finished flag is only read
when the selector string is the linear one, mirroring the short-circuit
of the Python conjunction). -/
def api_get_result (quizId : Int) (st : Store) : Store × Except ApiError ResultAPI :=
  if !quizIdExists st quizId then (st, .error .sessionNotFound)
  else
    match readStr st (qkey quizId .questionSelector) with
    | none => (st, .error .internalError)
    | some selStr =>
      if selStr = "linearSelector" then
        match readBool st (qkey quizId .quizFinished) with
        | none => (st, .error .internalError)
        | some fin =>
          if !fin then (st, .error .resultNotReady)
          else
            match get_result quizId st with
            | (st', some res) => (st', .ok res)
            | (st', none) => (st', .error .internalError)
      else
        match get_result quizId st with
        | (st', some res) => (st', .ok res)
        | (st', none) => (st', .error .internalError)

/-- api_delete_quiz of the source: 404 when the id is not registered. -/
def api_delete_quiz (quizId : Int) (st : Store) : Store × Except ApiError String :=
  if !quizIdExists st quizId then (st, .error .sessionNotFound)
  else (delete_quiz quizId st, .ok "deleted")

/-- One inbound request against the service. -/
inductive Op where
  | create (defaultSEE randTheta : ℚ) (freshId : Int) (q : QuizAPI)
  | next (estimate : EstimateFun) (see : SeeFun) (info : InfoFun) (a : AnswerAPI)
  | result (quizId : Int)
  | delete (quizId : Int)

/-- The store after a request is handled (requests on one session are
serialized, per the concurrency section of the specification). -/
def applyOp (op : Op) (st : Store) : Store :=
  match op with
  | .create d r f q => (api_create_quiz d r f q st).1
  | .next e s i a => (api_get_next_question e s i a st).1
  | .result q => (api_get_result q st).1
  | .delete q => (api_delete_quiz q st).1

/-- Stores reachable from the empty database by any sequence of
requests. -/
inductive Reachable : Store → Prop
  | empty : Reachable []
  | step (op : Op) {st : Store} : Reachable st → Reachable (applyOp op st)
theorem storeGet_cons (a : RKey) (b : RVal) (rest : Store) (k : RKey) :
    storeGet ((a, b) :: rest) k = if a = k then some b else storeGet rest k := rfl

theorem storeGet_filter_ne (st : Store) (k k' : RKey) (h : k' ≠ k) :
    storeGet (st.filter (fun p => decide (p.1 ≠ k))) k' = storeGet st k' := by
  simp only [ne_eq, decide_not]
  induction st with
  | nil => rfl
  | cons p rest ih =>
    obtain ⟨a, b⟩ := p
    rw [List.filter_cons]
    by_cases hp : a = k
    · simp [hp, storeGet_cons, Ne.symm h, ih]
    · simp [hp, storeGet_cons, ih]

@[simp] theorem storeGet_storeSet (st : Store) (k k' : RKey) (v : RVal) :
    storeGet (storeSet st k v) k' = if k = k' then some v else storeGet st k' := by
  unfold storeSet
  rw [storeGet_cons]
  by_cases h : k = k'
  · simp [h]
  · rw [if_neg h, if_neg h, storeGet_filter_ne st k k' (Ne.symm h)]

@[simp] theorem storeGet_storeRpushNat (st : Store) (k k' : RKey) (n : Nat) (h : k ≠ k') :
    storeGet (storeRpushNat st k n) k' = storeGet st k' := by
  unfold storeRpushNat
  rcases hget : storeGet st k with _ | v
  · simp [hget, h]
  · cases v <;> simp [hget, h]

@[simp] theorem storeGet_storeRpushRat (st : Store) (k k' : RKey) (x : ℚ) (h : k ≠ k') :
    storeGet (storeRpushRat st k x) k' = storeGet st k' := by
  unfold storeRpushRat
  rcases hget : storeGet st k with _ | v
  · simp [hget, h]
  · cases v <;> simp [hget, h]

@[simp] theorem storeGet_storeRpushInt (st : Store) (k k' : RKey) (x : Int) (h : k ≠ k') :
    storeGet (storeRpushInt st k x) k' = storeGet st k' := by
  unfold storeRpushInt
  rcases hget : storeGet st k with _ | v
  · simp [hget, h]
  · cases v <;> simp [hget, h]

@[simp] theorem storeGet_storeRpushQ (st : Store) (k k' : RKey) (q : Question) (h : k ≠ k') :
    storeGet (storeRpushQ st k q) k' = storeGet st k' := by
  unfold storeRpushQ
  rcases hget : storeGet st k with _ | v
  · simp [hget, h]
  · cases v <;> simp [hget, h]

@[simp] theorem storeGet_storeLremInt (st : Store) (k k' : RKey) (x : Int) (h : k ≠ k') :
    storeGet (storeLremInt st k x) k' = storeGet st k' := by
  unfold storeLremInt
  rcases hget : storeGet st k with _ | v
  · simp [hget, h]
  · cases v <;> simp [hget, h]

theorem readNatList_storeRpushNat_self (st : Store) (k : RKey) (n : Nat) :
    readNatList (storeRpushNat st k n) k = readNatList st k ++ [n] := by
  unfold storeRpushNat readNatList
  rcases hget : storeGet st k with _ | v
  · simp [hget]
  · cases v <;> simp [hget]

theorem readRatList_storeRpushRat_self (st : Store) (k : RKey) (x : ℚ) :
    readRatList (storeRpushRat st k x) k = readRatList st k ++ [x] := by
  unfold storeRpushRat readRatList
  rcases hget : storeGet st k with _ | v
  · simp [hget]
  · cases v <;> simp [hget]

theorem readIntList_storeRpushInt_self (st : Store) (k : RKey) (x : Int) :
    readIntList (storeRpushInt st k x) k = readIntList st k ++ [x] := by
  unfold storeRpushInt readIntList
  rcases hget : storeGet st k with _ | v
  · simp [hget]
  · cases v <;> simp [hget]

theorem storeGet_storeDel_mem (st : Store) (ks : List RKey) (k : RKey) (h : k ∈ ks) :
    storeGet (storeDel st ks) k = none := by
  unfold storeDel
  simp only [decide_not]
  induction st with
  | nil => rfl
  | cons p rest ih =>
    obtain ⟨a, b⟩ := p
    rw [List.filter_cons]
    by_cases hp : a ∈ ks
    · simp [hp, ih]
    · have ha : a ≠ k := fun hc => hp (hc ▸ h)
      simp [hp, storeGet_cons, ha, ih]

theorem storeGet_storeDel_not_mem (st : Store) (ks : List RKey) (k : RKey) (h : k ∉ ks) :
    storeGet (storeDel st ks) k = storeGet st k := by
  unfold storeDel
  simp only [decide_not]
  induction st with
  | nil => rfl
  | cons p rest ih =>
    obtain ⟨a, b⟩ := p
    rw [List.filter_cons]
    by_cases hp : a ∈ ks
    · have ha : a ≠ k := fun hc => h (hc ▸ hp)
      simp [hp, storeGet_cons, ha, ih]
    · simp [hp, storeGet_cons, ih]

/-- C7: calling the next-question operation on a session whose finished
flag is true is rejected with the ExamAlreadyFinished error and the store
is returned unchanged. -/
theorem c7_next_on_finished_rejected (estimate : EstimateFun) (see : SeeFun) (info : InfoFun)
    (answer : AnswerAPI) (st : Store)
    (hex : quizIdExists st answer.quizId = true)
    (hfin : readBool st (qkey answer.quizId .quizFinished) = some true) :
    api_get_next_question estimate see info answer st = (st, .error .examAlreadyFinished) := by
  unfold api_get_next_question
  rw [hex, hfin]
  rfl

/-- Witness for C7 at a concrete finished session. -/
theorem c7_witness :
    api_get_next_question (fun _ _ _ _ _ => 0) (fun _ _ => 1) (fun _ _ => 0) ⟨3, none⟩
      [(qkey 3 .quizFinished, RVal.rBool true), (RKey.quizIds, RVal.rIntList [3])]
      = ([(qkey 3 .quizFinished, RVal.rBool true), (RKey.quizIds, RVal.rIntList [3])],
          .error .examAlreadyFinished) :=
  c7_next_on_finished_rejected _ _ _ _ _ (by decide) (by decide)

/-- C8: a next-question call on a session that already has an administered
item, carrying a missing or out-of-range response, returns no payload and
leaves the store exactly as it was. -/
theorem c8_invalid_response_drop (estimate : EstimateFun) (see : SeeFun) (info : InfoFun)
    (answer : AnswerAPI) (st : Store)
    (hadm : (get_administeredItems st answer.quizId).length ≠ 0)
    (hbad : answer.isCorrect = none ∨
      ∃ rv, answer.isCorrect = some rv ∧ (rv < 0 ∨ 1 < rv)) :
    get_next_question estimate see info answer st = (st, none) := by
  have hguard : ∀ rv : ℚ, answer.isCorrect = some rv → ¬(0 ≤ rv ∧ rv ≤ 1) := by
    rintro rv hrv ⟨h0, h1⟩
    rcases hbad with hnone | ⟨rv2, hrv2, hout⟩
    · rw [hnone] at hrv; cases hrv
    · rw [hrv2] at hrv
      cases hrv
      rcases hout with h | h <;> linarith
  unfold get_next_question
  dsimp only
  rcases h1 : readRat st (qkey answer.quizId .minMeasurementAccuracy) with _ | minAcc <;>
    rcases h2 : readInt st (qkey answer.quizId .maxNumberOfQuestions) with _ | maxN <;>
      rcases h3 : get_selector st answer.quizId with _ | sel <;>
        simp only [h1, h2, h3] <;> try rfl
  rw [if_neg hadm]
  rcases hic : answer.isCorrect with _ | rv
  · rfl
  · simp [hguard rv hic]

/-- Witness for C8: an out-of-range response on a session with one
administered item changes nothing. -/
theorem c8_witness :
    get_next_question (fun _ _ _ _ _ => 0) (fun _ _ => 1) (fun _ _ => 0) ⟨5, some 2⟩
      [(qkey 5 .administeredItems, RVal.rNatList [0])]
      = ([(qkey 5 .administeredItems, RVal.rNatList [0])], none) :=
  c8_invalid_response_drop _ _ _ _ _ (by decide)
    (Or.inr ⟨2, rfl, Or.inr (by norm_num)⟩)

/-- C9: the boolean response vector handed to the estimator (built by
get_responses from the same stored list that get_responses_as_float
reports) marks a stored response as correct exactly when it equals 1;
in particular every response below 1 is scored fully incorrect. -/
theorem c9_partial_credit_scored_incorrect (st : Store) (quizId : Int) (i : Nat) (r : ℚ)
    (hr : (get_responses_as_float st quizId).get? i = some r) :
    (get_responses st quizId).get? i = some (decide (r = 1)) ∧
      (r < 1 → (get_responses st quizId).get? i = some false) := by
  have hmap : (get_responses st quizId).get? i = some (decide (r = 1)) := by
    unfold get_responses
    unfold get_responses_as_float at hr
    rw [List.get?_map, hr]
    rfl
  refine ⟨hmap, fun hlt => ?_⟩
  rw [hmap]
  have : r ≠ 1 := by intro h; rw [h] at hlt; exact absurd hlt (by norm_num)
  simp [this]

/-- Witness for C9: a stored half-credit response of 1/2 is handed to the
estimator as false. -/
theorem c9_witness :
    (get_responses [(qkey 9 .responses, RVal.rRatList [1, 1/2])] 9).get? 1 = some false :=
  (c9_partial_credit_scored_incorrect [(qkey 9 .responses, RVal.rRatList [1, 1/2])] 9 1 (1/2)
    (by rfl)).2 (by norm_num)

/-- C6 counterexample: deleting a session does not remove every
per-session key — the administeredItems key (and likewise responses and
itemIndex) survives the delete on this concrete session. -/
theorem c6_counterexample :
    storeGet
      (delete_quiz 4
        [(qkey 4 .administeredItems, RVal.rNatList [0]),
         (qkey 4 .responses, RVal.rRatList [1]),
         (qkey 4 .itemIndex, RVal.rInt 0),
         (qkey 4 .questions, RVal.rQList [⟨11, 1, 2, 0, 1⟩]),
         (RKey.quizIds, RVal.rIntList [4])])
      (qkey 4 .administeredItems) = some (RVal.rNatList [0]) := by
  rfl

/-- C6 (amended): delete removes the eleven listed per-session keys
(configuration, questions, estTheta, standard error, finished flag,
difficulty bounds) and removes the id from the registry, but it leaves
the administeredItems, responses and itemIndex keys exactly as they
were. -/
theorem c6_delete_partial_cleanup (quizId : Int) (st : Store) :
    (∀ f : FieldName, f ≠ .administeredItems → f ≠ .responses → f ≠ .itemIndex →
      storeGet (delete_quiz quizId st) (qkey quizId f) = none) ∧
    quizId ∉ readIntList (delete_quiz quizId st) RKey.quizIds ∧
    storeGet (delete_quiz quizId st) (qkey quizId .administeredItems) =
      storeGet st (qkey quizId .administeredItems) ∧
    storeGet (delete_quiz quizId st) (qkey quizId .responses) =
      storeGet st (qkey quizId .responses) ∧
    storeGet (delete_quiz quizId st) (qkey quizId .itemIndex) =
      storeGet st (qkey quizId .itemIndex) := by
  unfold delete_quiz
  refine ⟨?_, ?_, ?_, ?_, ?_⟩
  · intro f h1 h2 h3
    rw [storeGet_storeLremInt _ _ _ _ (fun h => RKey.noConfusion h)]
    apply storeGet_storeDel_mem
    cases f
    case administeredItems => exact absurd rfl h1
    case responses => exact absurd rfl h2
    case itemIndex => exact absurd rfl h3
    all_goals simp [qkey]
  · unfold storeLremInt
    rcases hget : storeGet (storeDel st _) RKey.quizIds with _ | v
    · simp [readIntList, hget]
    · cases v <;> simp [readIntList, hget]
  · rw [storeGet_storeLremInt _ _ _ _ (fun h => RKey.noConfusion h)]
    apply storeGet_storeDel_not_mem
    simp [qkey]
  · rw [storeGet_storeLremInt _ _ _ _ (fun h => RKey.noConfusion h)]
    apply storeGet_storeDel_not_mem
    simp [qkey]
  · rw [storeGet_storeLremInt _ _ _ _ (fun h => RKey.noConfusion h)]
    apply storeGet_storeDel_not_mem
    simp [qkey]

/-- Witness for the amended C6 on a concrete session: the estTheta key is
gone after the delete. -/
theorem c6_witness :
    storeGet (delete_quiz 6 [(qkey 6 .estTheta, RVal.rRat 1), (qkey 6 .responses, RVal.rRatList [1])])
      (qkey 6 .estTheta) = none :=
  (c6_delete_partial_cleanup 6 _).1 .estTheta (by decide) (by decide) (by decide)

/-- C5 counterexample: creation with an empty bank does fail (no quiz
object is returned), but by then the configuration keys of the session
are already persisted — here maxNumberOfQuestions is found in the store
after the failed create, refuting "no key of that session exists". -/
theorem c5_counterexample :
    (create_quiz 99 0 5 ⟨0, 20, 1, 0, "maxInfoSelector", "differentialEvolutionEstimator", []⟩ []).2
      = none ∧
    storeGet
      (create_quiz 99 0 5 ⟨0, 20, 1, 0, "maxInfoSelector", "differentialEvolutionEstimator", []⟩ []).1
      (qkey 5 .maxNumberOfQuestions) = some (RVal.rInt 20) :=
  ⟨rfl, rfl⟩

/-- C5 (amended): creating a session with an empty bank and the
differential-evolution estimator fails (the numpy reduction over the empty
difficulty column raises before the registry push), but the seven
configuration keys and the estTheta key written earlier remain persisted;
only the live-session registry is left untouched, so the id is never
registered. -/
theorem c5_empty_bank_partial_persist (defaultSEE randTheta : ℚ) (freshId : Int)
    (q : QuizAPI) (st : Store)
    (hq : q.questions = [])
    (hde : q.competencyEstimator = "differentialEvolutionEstimator")
    (hfresh : storeGet st (qkey freshId .questions) = none) :
    (create_quiz defaultSEE randTheta freshId q st).2 = none ∧
    readInt (create_quiz defaultSEE randTheta freshId q st).1 (qkey freshId .maxNumberOfQuestions)
      = some q.maxNumberOfQuestions ∧
    readStr (create_quiz defaultSEE randTheta freshId q st).1 (qkey freshId .questionSelector)
      = some q.questionSelector ∧
    readRat (create_quiz defaultSEE randTheta freshId q st).1 (qkey freshId .estTheta)
      = some (if q.inputProficiencyLevel = randomSentinel then randTheta
          else q.inputProficiencyLevel) ∧
    readIntList (create_quiz defaultSEE randTheta freshId q st).1 RKey.quizIds
      = readIntList st RKey.quizIds := by
  unfold create_quiz init_initializer init_estimator
  unfold qkey at hfresh
  simp [hq, hde, get_items, readQList, qkey, hfresh, minDifficulty, maxDifficulty,
    readInt, readRat, readStr, readIntList]

/-- Witness for the amended C5 at a concrete empty-bank creation. -/
theorem c5_witness :
    (create_quiz 50 3 8 ⟨0, 10, 1, 2, "maxInfoSelector", "differentialEvolutionEstimator", []⟩ []).2
      = none ∧
    readInt (create_quiz 50 3 8 ⟨0, 10, 1, 2, "maxInfoSelector", "differentialEvolutionEstimator", []⟩ []).1
      (qkey 8 .maxNumberOfQuestions) = some 10 ∧
    readStr (create_quiz 50 3 8 ⟨0, 10, 1, 2, "maxInfoSelector", "differentialEvolutionEstimator", []⟩ []).1
      (qkey 8 .questionSelector) = some "maxInfoSelector" ∧
    readRat (create_quiz 50 3 8 ⟨0, 10, 1, 2, "maxInfoSelector", "differentialEvolutionEstimator", []⟩ []).1
      (qkey 8 .estTheta) = some (if (2 : ℚ) = randomSentinel then 3 else 2) ∧
    readIntList (create_quiz 50 3 8 ⟨0, 10, 1, 2, "maxInfoSelector", "differentialEvolutionEstimator", []⟩ []).1
      RKey.quizIds = readIntList [] RKey.quizIds :=
  c5_empty_bank_partial_persist 50 3 8 _ [] rfl rfl rfl

theorem get_result_linear_loop_eq (items : List Question) (qids : List Int) :
    ∀ (adm : List Nat) (resps : List ℚ) (a b : ℚ) (acc : List Question),
      (∀ i ∈ adm, i < items.length) → qids.length = items.length →
      adm.length = resps.length →
      ∃ qs, get_result_linear_loop items qids adm resps a b acc =
        some (a + (adm.map (fun i => (items.getD i default).difficulty)).sum,
              b + ((adm.map (fun i => (items.getD i default).difficulty)).zipWith (· * ·)
                resps).sum,
              qs) := by
  intro adm
  induction adm with
  | nil =>
    intro resps a b acc _ _ _
    exact ⟨acc.reverse, by simp [get_result_linear_loop]⟩
  | cons idx rest ih =>
    intro resps a b acc hlt hq hlen
    rcases resps with _ | ⟨r, rs⟩
    · simp at hlen
    · have hidx : idx < items.length := hlt idx (by simp)
      have hitem : items.get? idx = some (items.getD idx default) := by
        rw [List.getD_eq_get?, List.get?_eq_get hidx]
        rfl
      have hqidx : idx < qids.length := by rw [hq]; exact hidx
      have hqid : qids.get? idx = some (qids.get ⟨idx, hqidx⟩) := List.get?_eq_get hqidx
      obtain ⟨qs, hrec⟩ := ih rs (a + (items.getD idx default).difficulty)
        (b + (items.getD idx default).difficulty * r)
        (⟨qids.get ⟨idx, hqidx⟩, (items.getD idx default).discrimination,
          (items.getD idx default).difficulty, (items.getD idx default).pseudoGuessing,
          (items.getD idx default).upperAsymptote⟩ :: acc)
        (fun i hi => hlt i (List.mem_cons_of_mem _ hi)) hq (Nat.succ_injective hlen)
      refine ⟨qs, ?_⟩
      simp only [get_result_linear_loop, hitem, hqid, hrec, List.map_cons, List.sum_cons,
        List.zipWith_cons_cons]
      simp [add_assoc]

/-- C1: for a finished linear session, get_result reports as
currentCompetency the sum over administered items of difficulty times
response divided by the sum of the difficulties, and reports a
measurementAccuracy of 0. -/
theorem c1_linear_result_formula (quizId : Int) (st : Store) (mx : Int)
    (hsel : readStr st (qkey quizId .questionSelector) = some "linearSelector")
    (hfin : readBool st (qkey quizId .quizFinished) = some true)
    (hmx : readInt st (qkey quizId .maxNumberOfQuestions) = some mx)
    (hrange : ∀ i ∈ get_administeredItems st quizId, i < (get_items st quizId).length)
    (hlen : (get_administeredItems st quizId).length
      = (get_responses_as_float st quizId).length) :
    ∃ res, (get_result quizId st).2 = some res ∧
      res.quizFinished = true ∧
      res.currentCompetency =
        (((get_administeredItems st quizId).map
            (fun i => ((get_items st quizId).getD i default).difficulty)).zipWith (· * ·)
          (get_responses_as_float st quizId)).sum /
        ((get_administeredItems st quizId).map
          (fun i => ((get_items st quizId).getD i default).difficulty)).sum ∧
      res.measurementAccuracy = 0 := by
  have hitems1 : get_items (storeSet st (qkey quizId .standardErrorOfEstimation) (RVal.rRat 0))
      quizId = get_items st quizId := by
    simp [get_items, readQList, qkey]
  have hqids1 : get_questionIds
      (storeSet st (qkey quizId .standardErrorOfEstimation) (RVal.rRat 0)) quizId
      = get_questionIds st quizId := by
    simp [get_questionIds, hitems1]
  have hadm1 : get_administeredItems
      (storeSet st (qkey quizId .standardErrorOfEstimation) (RVal.rRat 0)) quizId
      = get_administeredItems st quizId := by
    simp [get_administeredItems, readNatList, qkey]
  obtain ⟨qs, hloop⟩ := get_result_linear_loop_eq (get_items st quizId)
    (get_questionIds st quizId) (get_administeredItems st quizId)
    (get_responses_as_float st quizId) 0 0 [] hrange (by simp [get_questionIds]) hlen
  have e1 : ∀ v : RVal, readBool (storeSet
      (storeSet st (qkey quizId .standardErrorOfEstimation) (RVal.rRat 0))
      (qkey quizId .estTheta) v) (qkey quizId .quizFinished) = some true := by
    intro v
    unfold readBool
    rw [storeGet_storeSet, if_neg (by simp [qkey]), storeGet_storeSet, if_neg (by simp [qkey])]
    exact hfin
  have e2 : ∀ x : ℚ, readRat (storeSet
      (storeSet st (qkey quizId .standardErrorOfEstimation) (RVal.rRat 0))
      (qkey quizId .estTheta) (RVal.rRat x)) (qkey quizId .estTheta) = some x := by
    intro x
    unfold readRat
    rw [storeGet_storeSet, if_pos rfl]
  have e3 : ∀ v : RVal, readRat (storeSet
      (storeSet st (qkey quizId .standardErrorOfEstimation) (RVal.rRat 0))
      (qkey quizId .estTheta) v) (qkey quizId .standardErrorOfEstimation) = some 0 := by
    intro v
    unfold readRat
    rw [storeGet_storeSet, if_neg (by simp [qkey]), storeGet_storeSet, if_pos rfl]
  have e4 : ∀ v : RVal, readInt (storeSet
      (storeSet st (qkey quizId .standardErrorOfEstimation) (RVal.rRat 0))
      (qkey quizId .estTheta) v) (qkey quizId .maxNumberOfQuestions) = some mx := by
    intro v
    unfold readInt
    rw [storeGet_storeSet, if_neg (by simp [qkey]), storeGet_storeSet, if_neg (by simp [qkey])]
    exact hmx
  unfold get_result
  rw [hsel]
  simp only [reduceIte, hitems1, hqids1, hadm1, hloop, if_pos rfl, e1, e2, e3, e4]
  refine ⟨_, rfl, rfl, ?_, rfl⟩
  simp

/-- A concrete finished linear session: two questions of difficulty 3 and
1, both administered in order, with responses 1 and 0. -/
def linearDemoStore : Store :=
  [(qkey 1 .questionSelector, RVal.rStr "linearSelector"),
   (qkey 1 .quizFinished, RVal.rBool true),
   (qkey 1 .maxNumberOfQuestions, RVal.rInt 2),
   (qkey 1 .questions, RVal.rQList [⟨10, 1, 3, 0, 1⟩, ⟨20, 1, 1, 0, 1⟩]),
   (qkey 1 .administeredItems, RVal.rNatList [0, 1]),
   (qkey 1 .responses, RVal.rRatList [1, 0])]

/-- Witness for C1 on the concrete finished linear session. -/
theorem c1_witness :
    ∃ res, (get_result 1 linearDemoStore).2 = some res ∧
      res.quizFinished = true ∧
      res.currentCompetency =
        (((get_administeredItems linearDemoStore 1).map
            (fun i => ((get_items linearDemoStore 1).getD i default).difficulty)).zipWith (· * ·)
          (get_responses_as_float linearDemoStore 1)).sum /
        ((get_administeredItems linearDemoStore 1).map
          (fun i => ((get_items linearDemoStore 1).getD i default).difficulty)).sum ∧
      res.measurementAccuracy = 0 :=
  c1_linear_result_formula 1 linearDemoStore 2 rfl rfl rfl (by decide) (by decide)

theorem readStr_eq_some (st : Store) (k : RKey) (s : String) :
    readStr st k = some s ↔ storeGet st k = some (RVal.rStr s) := by
  unfold readStr
  rcases storeGet st k with _ | v
  · simp
  · cases v <;> simp

theorem readRat_eq_some (st : Store) (k : RKey) (x : ℚ) :
    readRat st k = some x ↔ storeGet st k = some (RVal.rRat x) := by
  unfold readRat
  rcases storeGet st k with _ | v
  · simp
  · cases v <;> simp

theorem readInt_eq_some (st : Store) (k : RKey) (n : Int) :
    readInt st k = some n ↔ storeGet st k = some (RVal.rInt n) := by
  unfold readInt
  rcases storeGet st k with _ | v
  · simp
  · cases v <;> simp

theorem readBool_eq_some (st : Store) (k : RKey) (b : Bool) :
    readBool st k = some b ↔ storeGet st k = some (RVal.rBool b) := by
  unfold readBool
  rcases storeGet st k with _ | v
  · simp
  · cases v <;> simp

/-- Recording the k-th response: whatever else the call does, the stored
finished flag afterwards is exactly the OR of the MinErrorStopper (new
standard error at or below the threshold) and the MaxItemStopper (count of
already administered items at or above the maximum). -/
theorem next_response_finished_flag (estimate : EstimateFun) (see : SeeFun) (info : InfoFun)
    (answer : AnswerAPI) (st : Store) (minAcc : ℚ) (maxN : Int) (sel : Selector)
    (rv theta0 mnD mxD : ℚ) (admItems : List Question)
    (hminAcc : readRat st (qkey answer.quizId .minMeasurementAccuracy) = some minAcc)
    (hmaxN : readInt st (qkey answer.quizId .maxNumberOfQuestions) = some maxN)
    (hsel : get_selector st answer.quizId = some sel)
    (hadm : (get_administeredItems st answer.quizId).length ≠ 0)
    (hic : answer.isCorrect = some rv) (h0 : 0 ≤ rv) (h1 : rv ≤ 1)
    (hest : readStr st (qkey answer.quizId .competencyEstimator)
      = some "differentialEvolutionEstimator")
    (hmnD : readRat st (qkey answer.quizId .minDiff) = some mnD)
    (hmxD : readRat st (qkey answer.quizId .maxDiff) = some mxD)
    (htheta : readRat st (qkey answer.quizId .estTheta) = some theta0)
    (hia : itemsAt (get_items st answer.quizId) (get_administeredItems st answer.quizId)
      = some admItems) :
    readBool (get_next_question estimate see info answer st).1
        (qkey answer.quizId .quizFinished)
      = some (minErrorStop minAcc
          (see (estimate (mnD, mxD) (get_items st answer.quizId)
              (get_administeredItems st answer.quizId)
              (get_responses (storeRpushRat st (qkey answer.quizId .responses) rv)
                answer.quizId) theta0) admItems)
          || maxItemStop maxN (get_administeredItems st answer.quizId).length) := by
  rw [readStr_eq_some] at hest
  rw [readRat_eq_some] at hminAcc hmnD hmxD htheta
  rw [readInt_eq_some] at hmaxN
  unfold get_next_question get_estimator
  dsimp only
  simp only [qkey] at *
  simp only [readStr, readRat, readInt, hminAcc, hmaxN, hsel, hic, hia, hest, hmnD, hmxD,
    htheta, ite_true,
    storeGet_storeRpushRat _ _ _ _ (by simp : RKey.field answer.quizId .responses ≠
      RKey.field answer.quizId .competencyEstimator),
    storeGet_storeRpushRat _ _ _ _ (by simp : RKey.field answer.quizId .responses ≠
      RKey.field answer.quizId .minDiff),
    storeGet_storeRpushRat _ _ _ _ (by simp : RKey.field answer.quizId .responses ≠
      RKey.field answer.quizId .maxDiff),
    storeGet_storeRpushRat _ _ _ _ (by simp : RKey.field answer.quizId .responses ≠
      RKey.field answer.quizId .estTheta)]
  rw [if_neg hadm, if_pos ⟨h0, h1⟩]
  split
  · unfold readBool
    rw [storeGet_storeSet, if_pos rfl]
  · split
    · unfold readBool
      rw [storeGet_storeSet, if_pos rfl]
    · split
      · unfold readBool
        rw [storeGet_storeSet, if_neg (by simp), storeGet_storeSet, if_pos rfl]
      · unfold readBool
        rw [storeGet_storeRpushNat _ _ _ _ (by simp), storeGet_storeSet, if_neg (by simp),
          storeGet_storeSet, if_pos rfl]

/-- A constant stand-in for the abstracted estimator. -/
def estZero : EstimateFun := fun _ _ _ _ _ => 0

/-- A constant stand-in for the abstracted standard-error function (the
value 1 is of the order of the true standard error after one response to a
standard logistic item). -/
def seeOne : SeeFun := fun _ _ => 1

/-- A constant stand-in for the abstracted information function. -/
def infoZero : InfoFun := fun _ _ => 0

/-- A two-item adaptive quiz allowing two questions, with a generous
accuracy threshold of 2. -/
def maxInfoDemoQuiz : QuizAPI :=
  ⟨0, 2, 2, 0, "maxInfoSelector", "differentialEvolutionEstimator",
    [⟨101, 1, 0, 0, 1⟩, ⟨102, 1, 1, 0, 1⟩]⟩

/-- The store after creating the two-item adaptive quiz under id 7. -/
def maxInfoDemoStore0 : Store := (create_quiz 10 0 7 maxInfoDemoQuiz []).1

/-- The store after the first question of that quiz has been delivered. -/
def maxInfoDemoStore1 : Store :=
  (get_next_question estZero seeOne infoZero ⟨7, none⟩ maxInfoDemoStore0).1

/-- C2 counterexample: a session with maxNumberOfQuestions = 2 whose
finished flag becomes true already when the first response is recorded,
because the MinErrorStopper (threshold 2, standard error 1) fires — the
configured OR of the stoppers finishes the quiz before the n-th
response. -/
theorem c2_counterexample :
    (get_administeredItems maxInfoDemoStore1 7).length = 1 ∧
    readInt maxInfoDemoStore1 (qkey 7 .maxNumberOfQuestions) = some 2 ∧
    readBool (get_next_question estZero seeOne infoZero ⟨7, some 1⟩ maxInfoDemoStore1).1
      (qkey 7 .quizFinished) = some true := by
  refine ⟨by decide, by decide, by decide⟩

/-- C2 (amended): when the k-th response is recorded, the stored finished
flag becomes exactly the OR of the MinErrorStopper (standard error at or
below minMeasurementAccuracy) and the MaxItemStopper (k at or above
maxNumberOfQuestions); hence the flag is true by the n-th response and
never later, but it can become true at an earlier response through the
MinErrorStopper. -/
theorem c2_finished_flag_is_stopper_or (estimate : EstimateFun) (see : SeeFun) (info : InfoFun)
    (answer : AnswerAPI) (st : Store) (minAcc : ℚ) (maxN : Int) (sel : Selector)
    (rv theta0 mnD mxD : ℚ) (admItems : List Question)
    (hminAcc : readRat st (qkey answer.quizId .minMeasurementAccuracy) = some minAcc)
    (hmaxN : readInt st (qkey answer.quizId .maxNumberOfQuestions) = some maxN)
    (hsel : get_selector st answer.quizId = some sel)
    (hadm : (get_administeredItems st answer.quizId).length ≠ 0)
    (hic : answer.isCorrect = some rv) (h0 : 0 ≤ rv) (h1 : rv ≤ 1)
    (hest : readStr st (qkey answer.quizId .competencyEstimator)
      = some "differentialEvolutionEstimator")
    (hmnD : readRat st (qkey answer.quizId .minDiff) = some mnD)
    (hmxD : readRat st (qkey answer.quizId .maxDiff) = some mxD)
    (htheta : readRat st (qkey answer.quizId .estTheta) = some theta0)
    (hia : itemsAt (get_items st answer.quizId) (get_administeredItems st answer.quizId)
      = some admItems) :
    readBool (get_next_question estimate see info answer st).1
        (qkey answer.quizId .quizFinished)
      = some (minErrorStop minAcc
          (see (estimate (mnD, mxD) (get_items st answer.quizId)
              (get_administeredItems st answer.quizId)
              (get_responses (storeRpushRat st (qkey answer.quizId .responses) rv)
                answer.quizId) theta0) admItems)
          || maxItemStop maxN (get_administeredItems st answer.quizId).length) :=
  next_response_finished_flag estimate see info answer st minAcc maxN sel rv theta0 mnD mxD
    admItems hminAcc hmaxN hsel hadm hic h0 h1 hest hmnD hmxD htheta hia

/-- A hand-written adaptive session under id 2 with one administered item
awaiting its response. -/
def pendingDemoStore : Store :=
  [(qkey 2 .minMeasurementAccuracy, RVal.rRat 0),
   (qkey 2 .maxNumberOfQuestions, RVal.rInt 3),
   (qkey 2 .questionSelector, RVal.rStr "maxInfoSelector"),
   (qkey 2 .competencyEstimator, RVal.rStr "differentialEvolutionEstimator"),
   (qkey 2 .minDiff, RVal.rRat 0),
   (qkey 2 .maxDiff, RVal.rRat 1),
   (qkey 2 .estTheta, RVal.rRat 0),
   (qkey 2 .standardErrorOfEstimation, RVal.rRat 10),
   (qkey 2 .quizFinished, RVal.rBool false),
   (qkey 2 .questions, RVal.rQList [⟨201, 1, 0, 0, 1⟩, ⟨202, 1, 1, 0, 1⟩]),
   (qkey 2 .administeredItems, RVal.rNatList [0]),
   (qkey 2 .itemIndex, RVal.rInt 0)]

/-- Witness for the amended C2 at a concrete pending session. -/
theorem c2_witness :
    readBool (get_next_question estZero seeOne infoZero ⟨2, some 1⟩ pendingDemoStore).1
        (qkey 2 .quizFinished)
      = some (minErrorStop 0
          (seeOne (estZero (0, 1) (get_items pendingDemoStore 2)
              (get_administeredItems pendingDemoStore 2)
              (get_responses (storeRpushRat pendingDemoStore (qkey 2 .responses) 1) 2) 0)
            [⟨201, 1, 0, 0, 1⟩])
          || maxItemStop 3 (get_administeredItems pendingDemoStore 2).length) :=
  c2_finished_flag_is_stopper_or estZero seeOne infoZero ⟨2, some 1⟩ pendingDemoStore 0 3
    Selector.maxInfo 1 0 0 1 [⟨201, 1, 0, 0, 1⟩]
    (by rfl) (by rfl) (by rfl) (by decide) rfl (by norm_num) (by norm_num)
    (by rfl) (by rfl) (by rfl) (by rfl) (by rfl)

/-- C4: creating a linear-selector session forces the stored
maxNumberOfQuestions to the question count and the stored
minMeasurementAccuracy to 0; consequently, since the standard error is
strictly positive, recording the k-th response finishes the session
exactly when k has reached the question count — after the response to the
last item of the bank and not before. -/
theorem c4_linear_forced_config :
    (∀ (defaultSEE randTheta : ℚ) (freshId : Int) (q : QuizAPI) (st : Store) (q' : QuizAPI),
      q.questionSelector = "linearSelector" →
      (create_quiz defaultSEE randTheta freshId q st).2 = some q' →
      readInt (create_quiz defaultSEE randTheta freshId q st).1
          (qkey freshId .maxNumberOfQuestions) = some (q.questions.length : Int) ∧
      readRat (create_quiz defaultSEE randTheta freshId q st).1
          (qkey freshId .minMeasurementAccuracy) = some 0) ∧
    (∀ (estimate : EstimateFun) (see : SeeFun) (info : InfoFun) (answer : AnswerAPI)
      (st : Store) (sel : Selector) (rv theta0 mnD mxD : ℚ) (admItems : List Question),
      readRat st (qkey answer.quizId .minMeasurementAccuracy) = some 0 →
      readInt st (qkey answer.quizId .maxNumberOfQuestions)
        = some ((get_items st answer.quizId).length : Int) →
      get_selector st answer.quizId = some sel →
      (get_administeredItems st answer.quizId).length ≠ 0 →
      answer.isCorrect = some rv → 0 ≤ rv → rv ≤ 1 →
      readStr st (qkey answer.quizId .competencyEstimator)
        = some "differentialEvolutionEstimator" →
      readRat st (qkey answer.quizId .minDiff) = some mnD →
      readRat st (qkey answer.quizId .maxDiff) = some mxD →
      readRat st (qkey answer.quizId .estTheta) = some theta0 →
      itemsAt (get_items st answer.quizId) (get_administeredItems st answer.quizId)
        = some admItems →
      (∀ theta l, 0 < see theta l) →
      readBool (get_next_question estimate see info answer st).1
          (qkey answer.quizId .quizFinished)
        = some (decide ((get_administeredItems st answer.quizId).length
            ≥ (get_items st answer.quizId).length))) := by
  constructor
  · intro dS rT f q st q' hsel hsucc
    unfold create_quiz at hsucc ⊢
    dsimp only at hsucc ⊢
    split at hsucc
    · simp at hsucc
    · rename_i st4 heq
      simp only [heq]
      unfold init_selector at *
      dsimp only at *
      rw [if_pos hsel] at *
      dsimp only at *
      constructor
      · unfold readInt
        rw [storeGet_storeRpushInt _ _ _ _ (fun h => RKey.noConfusion h),
          storeGet_storeSet, if_neg (by simp [qkey]), storeGet_storeSet, if_pos rfl]
      · unfold readRat
        rw [storeGet_storeRpushInt _ _ _ _ (fun h => RKey.noConfusion h),
          storeGet_storeSet, if_pos rfl]
  · intro estimate see info answer st sel rv theta0 mnD mxD admItems hminAcc hmaxN hsel hadm
      hic h0 h1 hest hmnD hmxD htheta hia hpos
    rw [next_response_finished_flag estimate see info answer st 0
      ((get_items st answer.quizId).length : Int) sel rv theta0 mnD mxD admItems
      hminAcc hmaxN hsel hadm hic h0 h1 hest hmnD hmxD htheta hia]
    congr 1
    unfold minErrorStop maxItemStop
    rw [decide_eq_false (not_le.mpr (hpos _ _)), Bool.false_or]
    rw [decide_eq_decide]
    exact Int.ofNat_le

/-- A linear quiz creation request whose configured maximum (99) and
accuracy threshold (5) are to be overridden at creation. -/
def linearDemoQuiz : QuizAPI :=
  ⟨0, 99, 5, 0, "linearSelector", "differentialEvolutionEstimator",
    [⟨301, 1, 2, 0, 1⟩, ⟨302, 1, 3, 0, 1⟩]⟩

/-- A hand-written linear session under id 3 with both items administered
and the response to the last one about to be recorded. -/
def linearPendingStore : Store :=
  [(qkey 3 .minMeasurementAccuracy, RVal.rRat 0),
   (qkey 3 .maxNumberOfQuestions, RVal.rInt 2),
   (qkey 3 .questionSelector, RVal.rStr "linearSelector"),
   (qkey 3 .competencyEstimator, RVal.rStr "differentialEvolutionEstimator"),
   (qkey 3 .minDiff, RVal.rRat 2),
   (qkey 3 .maxDiff, RVal.rRat 3),
   (qkey 3 .estTheta, RVal.rRat 0),
   (qkey 3 .standardErrorOfEstimation, RVal.rRat 10),
   (qkey 3 .quizFinished, RVal.rBool false),
   (qkey 3 .questions, RVal.rQList [⟨301, 1, 2, 0, 1⟩, ⟨302, 1, 3, 0, 1⟩]),
   (qkey 3 .administeredItems, RVal.rNatList [0, 1]),
   (qkey 3 .responses, RVal.rRatList [1])]

/-- Witness for C4: the concrete linear creation stores the forced
configuration, and the concrete linear session finishes exactly when the
response count reaches the bank size. -/
theorem c4_witness :
    (readInt (create_quiz 10 0 11 linearDemoQuiz []).1 (qkey 11 .maxNumberOfQuestions)
        = some ((linearDemoQuiz.questions.length : Nat) : Int) ∧
      readRat (create_quiz 10 0 11 linearDemoQuiz []).1 (qkey 11 .minMeasurementAccuracy)
        = some 0) ∧
    readBool (get_next_question estZero seeOne infoZero ⟨3, some 1⟩ linearPendingStore).1
        (qkey 3 .quizFinished)
      = some (decide ((get_administeredItems linearPendingStore 3).length
          ≥ (get_items linearPendingStore 3).length)) :=
  ⟨c4_linear_forced_config.1 10 0 11 linearDemoQuiz []
      ⟨11, 2, 0, 0, "linearSelector", "linearEstimator",
        [⟨301, 1, 2, 0, 1⟩, ⟨302, 1, 3, 0, 1⟩]⟩ rfl (by rfl),
    c4_linear_forced_config.2 estZero seeOne infoZero ⟨3, some 1⟩ linearPendingStore
      (Selector.linear (get_indices linearPendingStore 3)) 1 0 2 3
      [⟨301, 1, 2, 0, 1⟩, ⟨302, 1, 3, 0, 1⟩]
      (by rfl) (by rfl) (by rfl) (by decide) rfl (by norm_num) (by norm_num)
      (by rfl) (by rfl) (by rfl) (by rfl) (by rfl) (fun _ _ => one_pos)⟩

theorem foldl_pick_mem (g : Nat → ℚ) :
    ∀ (cs : List Nat) (c : Nat),
      cs.foldl (fun best j => if g j > g best then j else best) c ∈ c :: cs := by
  intro cs
  induction cs with
  | nil => intro c; simp
  | cons x xs ih =>
    intro c
    simp only [List.foldl_cons]
    rcases List.mem_cons.mp (ih (if g x > g c then x else c)) with h | h
    · rw [h]
      split
      · exact List.mem_cons_of_mem _ (List.mem_cons_self _ _)
      · exact List.mem_cons_self _ _
    · exact List.mem_cons_of_mem _ (List.mem_cons_of_mem _ h)

theorem selectorSelect_not_mem (info : InfoFun) (sel : Selector) (items : List Question)
    (administered : List Nat) (theta : ℚ) (j : Nat)
    (h : selectorSelect info sel items administered theta = some j) :
    j ∉ administered := by
  cases sel with
  | maxInfo =>
    simp only [selectorSelect, maxInfoSelect] at h
    rcases hf : (List.range items.length).filter (fun i => !administered.contains i)
      with _ | ⟨c, cs⟩
    · rw [hf] at h; cases h
    · rw [hf] at h
      have hj : j ∈ c :: cs := by
        have := foldl_pick_mem (fun k => info theta (items.getD k default)) cs c
        injection h with h'
        rw [← h']
        exact this
      have hmem : j ∈ (List.range items.length).filter (fun i => !administered.contains i) := by
        rw [hf]; exact hj
      have hp := List.of_mem_filter hmem
      simpa using hp
  | linear idxs =>
    simp only [selectorSelect, linearSelect] at h
    rcases hf : idxs.filter (fun i => !administered.contains i) with _ | ⟨c, cs⟩
    · rw [hf] at h; cases h
    · rw [hf] at h
      injection h with h'
      have hmem : j ∈ idxs.filter (fun i => !administered.contains i) := by
        rw [hf, ← h']; exact List.mem_cons_self _ _
      have hp := List.of_mem_filter hmem
      simpa using hp

theorem get_questionId_lt (st : Store) (q : Int) (j : Nat) (qid : Int)
    (h : get_questionId_by_index st q j = some qid) : j < (get_items st q).length := by
  unfold get_questionId_by_index get_questionIds at h
  rcases List.get?_eq_some.mp h with ⟨hlt, _⟩
  simpa using hlt

/-- Evolution of the administeredItems list across one next-question call:
either it is untouched (for any quiz id), or exactly one index is
appended, and that index was not previously administered and is a valid
bank index. -/
theorem get_next_question_administered (e : EstimateFun) (s : SeeFun) (i : InfoFun)
    (answer : AnswerAPI) (st : Store) (q : Int) :
    get_administeredItems (get_next_question e s i answer st).1 q
      = get_administeredItems st q ∨
    ∃ j, j ∉ get_administeredItems st q ∧ j < (get_items st q).length ∧
      get_administeredItems (get_next_question e s i answer st).1 q
        = get_administeredItems st q ++ [j] := by
  unfold get_next_question
  dsimp only
  rcases h1 : readRat st (qkey answer.quizId .minMeasurementAccuracy) with _ | minAcc <;>
    rcases h2 : readInt st (qkey answer.quizId .maxNumberOfQuestions) with _ | maxN <;>
      rcases h3 : get_selector st answer.quizId with _ | sel <;>
        simp only [h1, h2, h3]
  all_goals try exact Or.inl trivial
  all_goals try exact Or.inl rfl
  by_cases hlen : (get_administeredItems st answer.quizId).length = 0
  · rw [if_pos hlen]
    rcases h4 : readRat st (qkey answer.quizId .estTheta) with _ | theta <;> simp only [h4]
    · first | exact Or.inl trivial | exact Or.inl rfl
    · rcases h5 : selectorSelect i sel (get_items st answer.quizId)
          (get_administeredItems st answer.quizId) theta with _ | itemIndex <;>
        simp only [h5]
      · first | exact Or.inl trivial | exact Or.inl rfl
      · rcases h6 : get_questionId_by_index
            (storeSet st (qkey answer.quizId .itemIndex) (RVal.rInt (itemIndex : Int)))
            answer.quizId itemIndex with _ | qid <;>
          rcases h7 : readRat
            (storeSet st (qkey answer.quizId .itemIndex) (RVal.rInt (itemIndex : Int)))
            (qkey answer.quizId .standardErrorOfEstimation) with _ | se0 <;>
          rcases h8 : readBool
            (storeSet st (qkey answer.quizId .itemIndex) (RVal.rInt (itemIndex : Int)))
            (qkey answer.quizId .quizFinished) with _ | fin <;>
          simp only [h6, h7, h8]
        all_goals try (left; first | trivial | rfl | (simp [get_administeredItems, readNatList, qkey]; done))
        by_cases hq : answer.quizId = q
        · subst hq
          right
          refine ⟨itemIndex, selectorSelect_not_mem _ _ _ _ _ _ h5, ?_, ?_⟩
          · have hlt := get_questionId_lt _ _ _ _ h6
            simpa [get_items, readQList, qkey] using hlt
          · unfold get_administeredItems
            rw [readNatList_storeRpushNat_self]
            congr 1
            unfold readNatList
            rw [storeGet_storeSet, if_neg (by simp [qkey])]
        · left; simp [get_administeredItems, readNatList, qkey, hq]
  · rw [if_neg hlen]
    rcases h4 : answer.isCorrect with _ | rv <;> simp only [h4]
    · first | exact Or.inl trivial | exact Or.inl rfl
    · by_cases h5 : 0 ≤ rv ∧ rv ≤ 1
      · rw [if_pos h5]
        rcases h6 : get_estimator (storeRpushRat st (qkey answer.quizId .responses) rv)
            answer.quizId with _ | bounds <;> simp only [h6]
        · left; first | trivial | rfl | (simp [get_administeredItems, readNatList, qkey]; done)
        · rcases h7 : readRat (storeRpushRat st (qkey answer.quizId .responses) rv)
              (qkey answer.quizId .estTheta) with _ | theta0 <;> simp only [h7]
          · left; first | trivial | rfl | (simp [get_administeredItems, readNatList, qkey]; done)
          · rcases h8 : itemsAt (get_items st answer.quizId)
                (get_administeredItems st answer.quizId) with _ | admItems <;>
              simp only [h8]
            · left; first | trivial | rfl | (simp [get_administeredItems, readNatList, qkey]; done)
            · rcases h9 : minErrorStop minAcc
                  (s (e bounds (get_items st answer.quizId)
                    (get_administeredItems st answer.quizId)
                    (get_responses (storeRpushRat st (qkey answer.quizId .responses) rv)
                      answer.quizId) theta0) admItems)
                  || maxItemStop maxN (get_administeredItems st answer.quizId).length
                with _ | _
              · rw [if_neg Bool.false_ne_true]
                rcases h10 : selectorSelect i sel (get_items st answer.quizId)
                    (get_administeredItems st answer.quizId)
                    (e bounds (get_items st answer.quizId)
                      (get_administeredItems st answer.quizId)
                      (get_responses (storeRpushRat st (qkey answer.quizId .responses) rv)
                        answer.quizId) theta0) with _ | itemIndex <;> simp only [h10]
                · left; first | trivial | rfl | (simp [get_administeredItems, readNatList, qkey]; done)
                · rcases h11 : get_questionId_by_index
                      (storeSet (storeSet (storeSet (storeSet
                        (storeRpushRat st (qkey answer.quizId .responses) rv)
                        (qkey answer.quizId .estTheta)
                        (RVal.rRat (e bounds (get_items st answer.quizId)
                          (get_administeredItems st answer.quizId)
                          (get_responses (storeRpushRat st (qkey answer.quizId .responses) rv)
                            answer.quizId) theta0)))
                        (qkey answer.quizId .standardErrorOfEstimation)
                        (RVal.rRat (s (e bounds (get_items st answer.quizId)
                          (get_administeredItems st answer.quizId)
                          (get_responses (storeRpushRat st (qkey answer.quizId .responses) rv)
                            answer.quizId) theta0) admItems)))
                        (qkey answer.quizId .quizFinished) (RVal.rBool false))
                        (qkey answer.quizId .itemIndex) (RVal.rInt (itemIndex : Int)))
                      answer.quizId itemIndex with _ | qid <;> simp only [h11]
                  · left; first | trivial | rfl | (simp [get_administeredItems, readNatList, qkey]; done)
                  · by_cases hq : answer.quizId = q
                    · subst hq
                      right
                      refine ⟨itemIndex, selectorSelect_not_mem _ _ _ _ _ _ h10, ?_, ?_⟩
                      · have hlt := get_questionId_lt _ _ _ _ h11
                        simpa [get_items, readQList, qkey] using hlt
                      · unfold get_administeredItems
                        rw [readNatList_storeRpushNat_self]
                        congr 1
                        unfold readNatList
                        rw [storeGet_storeSet, if_neg (by simp [qkey]), storeGet_storeSet,
                          if_neg (by simp [qkey]), storeGet_storeSet, if_neg (by simp [qkey]),
                          storeGet_storeSet, if_neg (by simp [qkey]),
                          storeGet_storeRpushRat _ _ _ _ (by simp [qkey])]
                    · left; simp [get_administeredItems, readNatList, qkey, hq]
              · rw [if_pos rfl]
                left; first | trivial | rfl | (simp [get_administeredItems, readNatList, qkey]; done)
      · rw [if_neg h5]
        first | exact Or.inl trivial | exact Or.inl rfl

theorem get_indices_from_eq : ∀ (n i len : Nat), len + 1 - i = n →
    get_indices_from i len = List.range' i n := by
  intro n
  induction n with
  | zero =>
    intro i len h
    unfold get_indices_from
    rw [if_neg (by omega)]
    rfl
  | succ m ih =>
    intro i len h
    unfold get_indices_from
    rw [if_pos (by omega), ih (i + 1) len (by omega)]
    rfl

theorem get_indices_eq (st : Store) (quizId : Int) :
    get_indices st quizId = List.range ((get_items st quizId).length + 1) := by
  unfold get_indices
  rw [get_indices_from_eq ((get_items st quizId).length + 1) 0 (get_items st quizId).length
    (by omega), List.range_eq_range']

theorem linearSelect_range_lt (len : Nat) (adm : List Nat) (hnd : adm.Nodup)
    (hlt : ∀ i ∈ adm, i < len) (hcard : adm.length < len) :
    ∃ j, linearSelect (List.range (len + 1)) adm = some j ∧ j < len := by
  have hex : ∃ x ∈ List.range len, (!adm.contains x) = true := by
    by_contra hall
    push_neg at hall
    have hsub : List.range len ⊆ adm := by
      intro x hx
      have hx2 := hall x hx
      simpa using hx2
    have hle := (List.subperm_of_subset (List.nodup_range _) hsub).length_le
    simp only [List.length_range] at hle
    omega
  obtain ⟨x, hxr, hxc⟩ := hex
  have hx : x ∈ (List.range len).filter (fun i => !adm.contains i) :=
    List.mem_filter.mpr ⟨hxr, hxc⟩
  rcases hf : (List.range len).filter (fun i => !adm.contains i) with _ | ⟨c, cs⟩
  · rw [hf] at hx; cases hx
  · refine ⟨c, ?_, ?_⟩
    · unfold linearSelect
      rw [List.range_succ, List.filter_append, hf]
      rfl
    · have hc : c ∈ (List.range len).filter (fun i => !adm.contains i) := by
        rw [hf]; exact List.mem_cons_self _ _
      have := List.mem_of_mem_filter hc
      simpa using this

/-- C10: the index list built for the linear selector has one entry more
than the bank (its last entry is the out-of-range index equal to the bank
size); the linear selection over that list still picks an in-range index
as long as fewer items than the bank size are administered (the situation
the forced MaxItemStopper guarantees); and on a linear session every index
present in administeredItems after a next-question call is a valid bank
index. -/
theorem c10_linear_index_list :
    (∀ (st : Store) (quizId : Int),
      (get_indices st quizId).length = (get_items st quizId).length + 1 ∧
      (get_indices st quizId).getLast? = some (get_items st quizId).length) ∧
    (∀ (len : Nat) (adm : List Nat), adm.Nodup → (∀ i ∈ adm, i < len) →
      adm.length < len →
      ∃ j, linearSelect (List.range (len + 1)) adm = some j ∧ j < len) ∧
    (∀ (estimate : EstimateFun) (see : SeeFun) (info : InfoFun) (answer : AnswerAPI)
      (st : Store),
      readStr st (qkey answer.quizId .questionSelector) = some "linearSelector" →
      (∀ j ∈ get_administeredItems st answer.quizId, j < (get_items st answer.quizId).length) →
      ∀ j ∈ get_administeredItems (get_next_question estimate see info answer st).1
          answer.quizId,
        j < (get_items st answer.quizId).length) := by
  refine ⟨?_, linearSelect_range_lt, ?_⟩
  · intro st quizId
    rw [get_indices_eq]
    constructor
    · simp
    · rw [List.range_succ, List.getLast?_concat]
  · intro estimate see info answer st _ hold j hj
    rcases get_next_question_administered estimate see info answer st answer.quizId
      with he | ⟨j', _, hlt, he⟩
    · rw [he] at hj
      exact hold j hj
    · rw [he] at hj
      rcases List.mem_append.mp hj with h | h
      · exact hold j h
      · have : j = j' := by simpa using h
        exact this ▸ hlt

/-- Witness for C10 at a concrete linear session. -/
theorem c10_witness :
    (get_indices linearDemoStore 1).length = (get_items linearDemoStore 1).length + 1 ∧
    (∀ j ∈ get_administeredItems
        (get_next_question estZero seeOne infoZero ⟨1, some 1⟩ linearDemoStore).1 1,
      j < (get_items linearDemoStore 1).length) :=
  ⟨(c10_linear_index_list.1 linearDemoStore 1).1,
    c10_linear_index_list.2.2 estZero seeOne infoZero ⟨1, some 1⟩ linearDemoStore rfl
      (by decide)⟩

theorem get_administeredItems_storeSet (st : Store) (k : RKey) (v : RVal) (q : Int)
    (h : k ≠ qkey q .administeredItems) :
    get_administeredItems (storeSet st k v) q = get_administeredItems st q := by
  unfold get_administeredItems readNatList
  rw [storeGet_storeSet, if_neg h]

theorem get_administeredItems_rpushQ (st : Store) (k : RKey) (x : Question) (q : Int)
    (h : k ≠ qkey q .administeredItems) :
    get_administeredItems (storeRpushQ st k x) q = get_administeredItems st q := by
  unfold get_administeredItems readNatList
  rw [storeGet_storeRpushQ _ _ _ _ h]

theorem get_administeredItems_rpushInt (st : Store) (k : RKey) (x : Int) (q : Int)
    (h : k ≠ qkey q .administeredItems) :
    get_administeredItems (storeRpushInt st k x) q = get_administeredItems st q := by
  unfold get_administeredItems readNatList
  rw [storeGet_storeRpushInt _ _ _ _ h]

theorem get_administeredItems_foldl_rpushQ (qs : List Question) (k : RKey) (st : Store)
    (q : Int) (h : k ≠ qkey q .administeredItems) :
    get_administeredItems (qs.foldl (fun s question => storeRpushQ s k question) st) q
      = get_administeredItems st q := by
  induction qs generalizing st with
  | nil => rfl
  | cons x xs ih =>
    rw [List.foldl_cons, ih, get_administeredItems_rpushQ _ _ _ _ h]

theorem init_estimator_administered (qz : QuizAPI) (st st' : Store) (q : Int)
    (h : init_estimator qz st = some st') :
    get_administeredItems st' q = get_administeredItems st q := by
  unfold init_estimator at h
  split at h
  · split at h
    · injection h with h'
      subst h'
      rw [get_administeredItems_storeSet _ _ _ _ (by simp [qkey]),
        get_administeredItems_storeSet _ _ _ _ (by simp [qkey])]
    · cases h
  · injection h with h'
    subst h'
    rfl

theorem init_selector_administered (qz : QuizAPI) (st : Store) (q : Int) :
    get_administeredItems (init_selector qz st).2 q = get_administeredItems st q := by
  unfold init_selector
  split
  · rw [get_administeredItems_storeSet _ _ _ _ (by simp [qkey]),
      get_administeredItems_storeSet _ _ _ _ (by simp [qkey])]
  · rfl

theorem create_quiz_administered (d r : ℚ) (f : Int) (qz : QuizAPI) (st : Store) (q : Int) :
    get_administeredItems (create_quiz d r f qz st).1 q = get_administeredItems st q := by
  unfold create_quiz
  dsimp only
  split
  · rename_i heq
    unfold init_initializer
    dsimp only
    rw [get_administeredItems_storeSet _ _ _ _ (by simp [qkey]),
      get_administeredItems_foldl_rpushQ _ _ _ _ (by simp [qkey])]
    simp [get_administeredItems_storeSet, qkey]
  · rename_i st4 heq
    rw [get_administeredItems_rpushInt _ _ _ _ (fun hc => RKey.noConfusion hc),
      init_selector_administered, init_estimator_administered _ _ _ q heq]
    unfold init_initializer
    dsimp only
    rw [get_administeredItems_storeSet _ _ _ _ (by simp [qkey]),
      get_administeredItems_foldl_rpushQ _ _ _ _ (by simp [qkey])]
    simp [get_administeredItems_storeSet, qkey]

theorem get_result_administered (q : Int) (st : Store) (qq : Int) :
    get_administeredItems (get_result q st).1 qq = get_administeredItems st qq := by
  unfold get_result
  dsimp only
  repeat' split
  all_goals first
    | rfl
    | (simp [get_administeredItems_storeSet, qkey]; done)

theorem delete_quiz_administered (q : Int) (st : Store) (qq : Int) :
    get_administeredItems (delete_quiz q st) qq = get_administeredItems st qq := by
  unfold delete_quiz get_administeredItems readNatList
  rw [storeGet_storeLremInt _ _ _ _ (fun h => RKey.noConfusion h),
    storeGet_storeDel_not_mem _ _ _ (by simp [qkey])]

theorem api_create_quiz_store (d r : ℚ) (f : Int) (qz : QuizAPI) (st : Store) :
    (api_create_quiz d r f qz st).1 = (create_quiz d r f qz st).1 := by
  unfold api_create_quiz
  rcases hg : create_quiz d r f qz st with ⟨st', r'⟩
  rcases r' with _ | qres <;> simp [hg]

theorem api_get_next_question_store (e : EstimateFun) (s : SeeFun) (i : InfoFun)
    (a : AnswerAPI) (st : Store) :
    (api_get_next_question e s i a st).1 = st ∨
    (api_get_next_question e s i a st).1 = (get_next_question e s i a st).1 := by
  unfold api_get_next_question
  repeat' split
  all_goals try exact Or.inl rfl
  all_goals right
  all_goals rename_i heq
  all_goals rw [heq]

theorem api_get_result_store (q : Int) (st : Store) :
    (api_get_result q st).1 = st ∨ (api_get_result q st).1 = (get_result q st).1 := by
  unfold api_get_result
  repeat' split
  all_goals try exact Or.inl rfl
  all_goals right
  all_goals rename_i heq
  all_goals rw [heq]

theorem api_delete_quiz_store (q : Int) (st : Store) :
    (api_delete_quiz q st).1 = st ∨ (api_delete_quiz q st).1 = delete_quiz q st := by
  unfold api_delete_quiz
  split
  · exact Or.inl rfl
  · exact Or.inr rfl

/-- C3: in every store reachable from the empty database through any
sequence of requests, no session's administeredItems list contains a
repeated index — the selector output pushed by get_next_question is never
an index already present, and no other operation touches the list. -/
theorem c3_administered_nodup (st : Store) (h : Reachable st) :
    ∀ quizId : Int, (get_administeredItems st quizId).Nodup := by
  induction h with
  | empty =>
    intro q
    simp [get_administeredItems, readNatList, storeGet]
  | step op hst ih =>
    intro q
    rename_i stPrev
    cases op with
    | create d r f qz =>
      have happ : applyOp (Op.create d r f qz) stPrev = (api_create_quiz d r f qz stPrev).1 :=
        rfl
      rw [happ, api_create_quiz_store, create_quiz_administered]
      exact ih q
    | next e s i a =>
      have happ : applyOp (Op.next e s i a) stPrev = (api_get_next_question e s i a stPrev).1 :=
        rfl
      rw [happ]
      rcases api_get_next_question_store e s i a stPrev with hc | hc
      · rw [hc]; exact ih q
      · rw [hc]
        rcases get_next_question_administered e s i a stPrev q with he | ⟨j, hnm, _, he⟩
        · rw [he]; exact ih q
        · rw [he]
          refine List.Nodup.append (ih q) (List.nodup_singleton j) ?_
          intro a1 ha1 hb1
          have : a1 = j := by simpa using hb1
          exact hnm (this ▸ ha1)
    | result qz =>
      have happ : applyOp (Op.result qz) stPrev = (api_get_result qz stPrev).1 := rfl
      rw [happ]
      rcases api_get_result_store qz stPrev with hc | hc
      · rw [hc]; exact ih q
      · rw [hc, get_result_administered]; exact ih q
    | delete qz =>
      have happ : applyOp (Op.delete qz) stPrev = (api_delete_quiz qz stPrev).1 := rfl
      rw [happ]
      rcases api_delete_quiz_store qz stPrev with hc | hc
      · rw [hc]; exact ih q
      · rw [hc, delete_quiz_administered]; exact ih q

/-- Witness for C3: a store reached by creating an adaptive quiz,
delivering its first question and recording a response has a
duplicate-free administered list. -/
theorem c3_witness :
    (get_administeredItems
      (applyOp (Op.next estZero seeOne infoZero ⟨7, some 0⟩)
        (applyOp (Op.next estZero seeOne infoZero ⟨7, none⟩)
          (applyOp (Op.create 10 0 7 maxInfoDemoQuiz) []))) 7).Nodup :=
  c3_administered_nodup _
    (Reachable.step _ (Reachable.step _ (Reachable.step _ Reachable.empty))) 7
